import Mathlib

/-!
Verification of the WeatherApp data-shaping core (src/main.cpp).

The development shallowly embeds the three pure pieces of the program:

* `fon` — the temperature-to-background-color mapping (main.cpp lines 34-44),
  over exact rationals, and `fonX` the same branch chain over an IEEE-style
  extended domain (finite / ±infinity / NaN) with IEEE comparison semantics;
* `parseVisualCrossingJson` — the VisualCrossing day/hours schedule extractor
  (main.cpp lines 53-88), over a generic JSON tree mirroring Qt's
  QJsonDocument / QJsonValue access semantics;
* `plotLineStat`'s statistics (main.cpp lines 148-195) — mean, population
  standard deviation and the per-point deviation band.

Machine doubles are embedded as exact rationals (ℚ); the square root lands in ℝ.
-/

namespace WeatherApp

/-! ### Temperature-to-color mapping (`fon`, main.cpp lines 34-44) -/

/-- `QColor fon(double temp_c)`: the ordered if/else chain of main.cpp
lines 35-43, colors kept as their hex strings. -/
def fon (temp_c : ℚ) : String :=
  if temp_c < -20 then "#191970"
  else if temp_c ≤ -10 then "#4682B4"
  else if temp_c ≤ -5 then "#B0E0E6"
  else if temp_c ≤ 0 then "#E0FFFF"
  else if temp_c ≤ 10 then "#FFE4B5"
  else if temp_c ≤ 15 then "#DEB887"
  else if temp_c < 21 then "#DAA520"
  else if temp_c < 26 then "#FF8C00"
  else "#B22222"

/-- The palette in band order, deep blue through deep red. -/
def palette : Nat → String
  | 0 => "#191970"
  | 1 => "#4682B4"
  | 2 => "#B0E0E6"
  | 3 => "#E0FFFF"
  | 4 => "#FFE4B5"
  | 5 => "#DEB887"
  | 6 => "#DAA520"
  | 7 => "#FF8C00"
  | _ => "#B22222"

/-- Band membership for the nine temperature bands as the code realises them:
band 5 is `(10, 15]` (code tests `temp_c <= 15`) and band 6 is `(15, 21)`
(code tests `temp_c < 21` after the `<= 15` test failed). -/
def inBand (k : Nat) (t : ℚ) : Prop :=
  match k with
  | 0 => t < -20
  | 1 => -20 ≤ t ∧ t ≤ -10
  | 2 => -10 < t ∧ t ≤ -5
  | 3 => -5 < t ∧ t ≤ 0
  | 4 => 0 < t ∧ t ≤ 10
  | 5 => 10 < t ∧ t ≤ 15
  | 6 => 15 < t ∧ t < 21
  | 7 => 21 ≤ t ∧ t < 26
  | _ => 26 ≤ t

/-! ### The same dispatch over IEEE special values (claim about NaN/±∞).

C++ `double` comparisons: any comparison with NaN is false; ±∞ are ordered
beyond every finite value. `XDouble` extends ℚ with these three values and
`XDouble.lt` / `XDouble.le` give the IEEE comparison results. -/

/-- A machine double: a finite value (embedded exactly as a rational),
one of the two infinities, or NaN. -/
inductive XDouble where
  | fin : ℚ → XDouble
  | posInf : XDouble
  | negInf : XDouble
  | nan : XDouble
deriving DecidableEq

/-- IEEE `<` on doubles: false whenever either side is NaN. -/
def XDouble.lt : XDouble → XDouble → Bool
  | .nan, _ => false
  | _, .nan => false
  | .negInf, .negInf => false
  | .negInf, _ => true
  | _, .negInf => false
  | .posInf, _ => false
  | .fin _, .posInf => true
  | .fin a, .fin b => decide (a < b)

/-- IEEE `<=` on doubles: false whenever either side is NaN. -/
def XDouble.le : XDouble → XDouble → Bool
  | .nan, _ => false
  | _, .nan => false
  | .negInf, _ => true
  | _, .negInf => false
  | _, .posInf => true
  | .posInf, .fin _ => false
  | .fin a, .fin b => decide (a ≤ b)

/-- `fon` over the full double domain: the identical branch chain of main.cpp
lines 35-43, with each C++ comparison read through IEEE semantics. -/
def fonX (temp_c : XDouble) : String :=
  if temp_c.lt (.fin (-20)) then "#191970"
  else if temp_c.le (.fin (-10)) then "#4682B4"
  else if temp_c.le (.fin (-5)) then "#B0E0E6"
  else if temp_c.le (.fin 0) then "#E0FFFF"
  else if temp_c.le (.fin 10) then "#FFE4B5"
  else if temp_c.le (.fin 15) then "#DEB887"
  else if temp_c.lt (.fin 21) then "#DAA520"
  else if temp_c.lt (.fin 26) then "#FF8C00"
  else "#B22222"

/-! ### Generic JSON tree, mirroring Qt's QJsonDocument / QJsonValue semantics.

`undef` is QJsonValue::Undefined, the value of a missing object key; the
conversion functions return Qt's documented defaults (empty object/array,
null string, 0.0) when the value has a different type. -/

/-- A JSON value as QJsonValue exposes it. -/
inductive Json where
  | null : Json
  | undef : Json
  | bool : Bool → Json
  | num : ℚ → Json
  | str : String → Json
  | arr : List Json → Json
  | obj : List (String × Json) → Json

/-- `QJsonObject::operator[]`: value of the first matching key,
`Undefined` when the key is absent. -/
def objLookup (o : List (String × Json)) (key : String) : Json :=
  match o with
  | [] => .undef
  | (k, v) :: rest => if k = key then v else objLookup rest key

/-- `QJsonObject::contains`. -/
def objContains (o : List (String × Json)) (key : String) : Bool :=
  match o with
  | [] => false
  | (k, _) :: rest => k = key || objContains rest key

/-- `QJsonDocument::object` / `QJsonValue::toObject`: the fields when the
value is an object, the empty object otherwise. -/
def Json.toObject : Json → List (String × Json)
  | .obj o => o
  | _ => []

/-- `QJsonValue::toArray`: the elements when the value is an array,
the empty array otherwise. -/
def Json.toArray : Json → List Json
  | .arr a => a
  | _ => []

/-- `QJsonValue::toString`: the string when the value is a string,
the null (empty) string otherwise. -/
def Json.toString : Json → String
  | .str s => s
  | _ => ""

/-- `QJsonValue::toDouble`: the number when the value is numeric,
the default 0.0 otherwise. -/
def Json.toDouble : Json → ℚ
  | .num q => q
  | _ => 0

/-- Whether the value is an object (QJsonValue::isObject). -/
def Json.isObj : Json → Bool
  | .obj _ => true
  | _ => false

/-- Whether the value is an array (QJsonValue::isArray). -/
def Json.isArr : Json → Bool
  | .arr _ => true
  | _ => false

/-- Whether the value is numeric (QJsonValue::isDouble). -/
def Json.isNum : Json → Bool
  | .num _ => true
  | _ => false

/-! ### Timestamps: QDateTime::fromString with the fixed layout
`yyyy-MM-dd HH:mm:ss`.  An invalid QDateTime is `none`. -/

/-- A parsed calendar timestamp. -/
structure DateTime where
  year : Nat
  month : Nat
  day : Nat
  hour : Nat
  minute : Nat
  second : Nat
deriving DecidableEq

/-- Numeric value of a decimal digit character. -/
def digitVal (c : Char) : Nat := c.toNat - Char.toNat '0'

/-- Gregorian leap-year rule. -/
def isLeapYear (y : Nat) : Bool := (y % 4 == 0 && y % 100 != 0) || y % 400 == 0

/-- Days in a month of a given year. -/
def daysInMonth (y m : Nat) : Nat :=
  if m = 2 then (if isLeapYear y then 29 else 28)
  else if m = 4 ∨ m = 6 ∨ m = 9 ∨ m = 11 then 30
  else 31

/-- `QDateTime::fromString(s, "yyyy-MM-dd HH:mm:ss")`: the string must match
the 19-character layout exactly, with all date/time components in range;
any mismatch yields the invalid timestamp `none`. -/
def parseDateTime (s : String) : Option DateTime :=
  match s.toList with
  | [y1, y2, y3, y4, c1, m1, m2, c2, d1, d2, c3, h1, h2, c4, n1, n2, c5, s1, s2] =>
      if c1 = '-' ∧ c2 = '-' ∧ c3 = ' ' ∧ c4 = ':' ∧ c5 = ':'
          ∧ [y1, y2, y3, y4, m1, m2, d1, d2, h1, h2, n1, n2, s1, s2].all Char.isDigit then
        let year := 1000 * digitVal y1 + 100 * digitVal y2 + 10 * digitVal y3 + digitVal y4
        let month := 10 * digitVal m1 + digitVal m2
        let day := 10 * digitVal d1 + digitVal d2
        let hour := 10 * digitVal h1 + digitVal h2
        let minute := 10 * digitVal n1 + digitVal n2
        let second := 10 * digitVal s1 + digitVal s2
        if 1 ≤ year ∧ 1 ≤ month ∧ month ≤ 12 ∧ 1 ≤ day ∧ day ≤ daysInMonth year month
            ∧ hour ≤ 23 ∧ minute ≤ 59 ∧ second ≤ 59 then
          some ⟨year, month, day, hour, minute, second⟩
        else none
      else none
  | _ => none

/-! ### The schedule extractor (`parseVisualCrossingJson`, main.cpp 53-88) -/

/-- `struct WeatherPoint` of main.cpp lines 20-26. -/
structure WeatherPoint where
  datetime : Option DateTime
  temperature : ℚ
  pressure : ℚ
  humidity : ℚ
  windspeed : ℚ
deriving DecidableEq

/-- The `interval` computed from `freq` at main.cpp lines 56-66: the chain of
string comparisons, with the initial value 1 kept for any other string. -/
def parseFreq (freq : String) : Nat :=
  if freq = "1h" then 1
  else if freq = "3h" then 3
  else if freq = "6h" then 6
  else if freq = "12h" then 12
  else if freq = "1d" then 24
  else 1

/-- Iterations of the inner loop `for (int i = 0; i < n; i += interval)`,
structurally recursive on a fuel bound on the remaining iterations. -/
def strideGo (n interval : Nat) : Nat → Nat → List Nat
  | 0, _ => []
  | fuel + 1, i => if i < n then i :: strideGo n interval fuel (i + interval) else []

/-- Index sequence of the inner loop `for (int i = 0; i < n; i += interval)`
started at `i`: the fuel `n - i` suffices because `parseFreq` always supplies
a positive interval, so each iteration shrinks `n - i`. -/
def strideLoop (n interval i : Nat) : List Nat :=
  strideGo n interval (n - i) i

/-- The body of main.cpp lines 76-84: one `WeatherPoint` built from a selected
hourly entry, each numeric field through `toDouble` (default 0.0) and the
timestamp from the concatenated date and time strings. -/
def mkPoint (date : String) (hourV : Json) : WeatherPoint :=
  let hour := hourV.toObject
  let time := (objLookup hour "datetime").toString
  { datetime := parseDateTime (date ++ " " ++ time)
  , temperature := (objLookup hour "temp").toDouble
  , pressure := (objLookup hour "pressure").toDouble
  , humidity := (objLookup hour "humidity").toDouble
  , windspeed := (objLookup hour "windspeed").toDouble }

/-- One day's contribution (main.cpp lines 71-85): skipped entirely when the
day object has no "hours" key, otherwise one point per stride-selected entry. -/
def extractDay (interval : Nat) (dayV : Json) : List WeatherPoint :=
  let day := dayV.toObject
  let date := (objLookup day "datetime").toString
  if objContains day "hours" then
    let hours := (objLookup day "hours").toArray
    (strideLoop hours.length interval 0).map (fun i => mkPoint date (hours.getD i .undef))
  else []

/-- `parseVisualCrossingJson` (main.cpp lines 53-88): walk `doc.object()["days"]`
in order, appending each day's points to the result. -/
def parseVisualCrossingJson (doc : Json) (freq : String) : List WeatherPoint :=
  let interval := parseFreq freq
  let days := (objLookup doc.toObject "days").toArray
  days.foldl (fun result dayV => result ++ extractDay interval dayV) []

/-- The extraction loop instrumented with provenance: each produced point is
tagged with the index of its source day (counting from `d`) and the index of
its source hourly entry within that day. -/
def extractIndexed (interval : Nat) (d : Nat) : List Json → List (Nat × Nat × WeatherPoint)
  | [] => []
  | dayV :: rest =>
      (let day := dayV.toObject
       let date := (objLookup day "datetime").toString
       if objContains day "hours" then
         let hours := (objLookup day "hours").toArray
         (strideLoop hours.length interval 0).map (fun i => (d, i, mkPoint date (hours.getD i .undef)))
       else [])
      ++ extractIndexed interval (d + 1) rest

/-- Total number of hourly entries across all days of the document (a day
without a "hours" array contributes zero). -/
def totalHours (doc : Json) : Nat :=
  (((objLookup doc.toObject "days").toArray).map
    (fun dayV => ((objLookup dayV.toObject "hours").toArray).length)).sum

/-! ### Series statistics (`WeatherChart::plotLineStat`, main.cpp 148-195).

The input `xys` is the list of chart points: x is the millisecond timestamp
(an integer), y the measured value. -/

/-- main.cpp line 166-167: `std::accumulate(values.begin(), values.end(), 0.0)
/ values.size()` — a left fold starting at 0, divided by the length. -/
def mean (values : List ℚ) : ℚ :=
  values.foldl (· + ·) 0 / values.length

/-- The accumulate of main.cpp lines 168-171: left fold of
`sum + (v - mean) * (v - mean)` over the values, starting at 0. -/
def sqAcc (values : List ℚ) (m : ℚ) : ℚ :=
  values.foldl (fun sum v => sum + (v - m) * (v - m)) 0

/-- main.cpp lines 168-171: `std::sqrt` of the squared-deviation sum divided
by the length — the population standard deviation. -/
noncomputable def stddev (values : List ℚ) : ℝ :=
  Real.sqrt ((sqAcc values (mean values) / values.length : ℚ) : ℝ)

instance (values : List ℚ) : Decidable (0 < stddev values) :=
  decidable_of_iff (0 < sqAcc values (mean values) / values.length)
    (by rw [stddev, Real.sqrt_pos, Rat.cast_pos])

/-- Modelled from the spec: `mean` as §4.2 words it, the arithmetic average
of all values. -/
def meanSpec (values : List ℚ) : ℚ :=
  values.sum / values.length

/-- Modelled from the spec: population standard deviation as §4.2 words it
— the sum of squared deviations around the mean, divided by N (not N−1),
then the square root. -/
noncomputable def stddevSpec (values : List ℚ) : ℝ :=
  Real.sqrt (((values.map (fun v => (v - meanSpec values) * (v - meanSpec values))).sum
    / values.length : ℚ) : ℝ)

/-- The series `plotLineStat` hands to the chart: the main line, the constant
mean line, and (in deviation mode with positive stddev) the ±σ band. -/
structure ChartData where
  series : List (ℤ × ℚ)
  meanLine : List (ℤ × ℚ)
  band : Option (List (ℤ × ℝ) × List (ℤ × ℝ))

/-- `WeatherChart::plotLineStat` (main.cpp 148-195) reduced to the data it
plots: the input points unchanged, the mean repeated at every timestamp, and
— only when `showDeviation && stddev > 0` (line 181) — the upper and lower
band series pairing each point's own timestamp with `values[i] ± stddev`
(lines 188-192). -/
noncomputable def plotLineStat (xys : List (ℤ × ℚ)) (showDeviation : Bool) : ChartData :=
  let values := xys.map Prod.snd
  let m := mean values
  let s := stddev values
  { series := xys
  , meanLine := xys.map (fun p => (p.1, m))
  , band :=
      if showDeviation ∧ 0 < s then
        some (xys.map (fun p => (p.1, (p.2 : ℝ) + s)),
              xys.map (fun p => (p.1, (p.2 : ℝ) - s)))
      else none }

/-! ### Concrete inputs used by the witnesses -/

/-- A concrete two-point series used by the band witnesses. -/
def xys0 : List (ℤ × ℚ) := [(0, 1), (1, 2)]

/-- The upper band series `plotLineStat` emits for `xys0`. -/
noncomputable def u0 : List (ℤ × ℝ) :=
  xys0.map (fun p => (p.1, (p.2 : ℝ) + stddev (xys0.map Prod.snd)))

/-- The lower band series `plotLineStat` emits for `xys0`. -/
noncomputable def l0 : List (ℤ × ℝ) :=
  xys0.map (fun p => (p.1, (p.2 : ℝ) - stddev (xys0.map Prod.snd)))

/-- An hourly entry of the round-trip scenario of §8 of the spec. -/
def hour00 : Json :=
  .obj [("datetime", .str "00:00:00"), ("temp", .num 10), ("pressure", .num 1010),
        ("humidity", .num 80), ("windspeed", .num 1)]

/-- The second hourly entry of the round-trip scenario. -/
def hour01 : Json :=
  .obj [("datetime", .str "01:00:00"), ("temp", .num 11), ("pressure", .num 1011),
        ("humidity", .num 81), ("windspeed", .num (11 / 10))]

/-- A day with two hourly entries. -/
def day1 : Json :=
  .obj [("datetime", .str "2023-01-01"), ("hours", .arr [hour00, hour01])]

/-- A day without an hourly breakdown. -/
def dayNoHours : Json := .obj [("datetime", .str "2023-01-02")]

/-- The schedule document of the round-trip scenario. -/
def doc1 : Json := .obj [("days", .arr [day1])]

/-- A document whose days list holds a day with hours and a day without. -/
def doc2 : Json := .obj [("days", .arr [day1, dayNoHours])]

/-- An hourly entry with a malformed time string and a non-numeric temp. -/
def hourBad : Json :=
  .obj [("datetime", .str "oops"), ("temp", .str "hot"), ("pressure", .bool true)]

/-- A day holding the malformed hourly entry. -/
def dayBad : Json :=
  .obj [("datetime", .str "2023-01-03"), ("hours", .arr [hourBad])]

/-- A document holding the malformed day. -/
def docBad : Json := .obj [("days", .arr [dayBad])]

/-- Default element for indexed list access into `extractIndexed` output. -/
def noPoint : Nat × Nat × WeatherPoint := (0, 0, ⟨none, 0, 0, 0, 0⟩)

/-! ## Lemmas and claim theorems -/

/-- Band index selected by the if/else chain of `fon`. -/
def bandIdx (t : ℚ) : Nat :=
  if t < -20 then 0
  else if t ≤ -10 then 1
  else if t ≤ -5 then 2
  else if t ≤ 0 then 3
  else if t ≤ 10 then 4
  else if t ≤ 15 then 5
  else if t < 21 then 6
  else if t < 26 then 7
  else 8

theorem fon_eq_palette_bandIdx (t : ℚ) : fon t = palette (bandIdx t) := by
  unfold fon bandIdx
  split_ifs <;> rfl

theorem bandIdx_lt (t : ℚ) : bandIdx t < 9 := by
  unfold bandIdx
  split_ifs <;> norm_num

theorem inBand_bandIdx (t : ℚ) : inBand (bandIdx t) t := by
  unfold bandIdx
  split_ifs <;> simp only [inBand] <;>
    first
      | linarith
      | exact ⟨by linarith, by linarith⟩

theorem inBand_unique (t : ℚ) (k : Nat) (hk : k < 9) (h : inBand k t) :
    k = bandIdx t := by
  unfold bandIdx
  split_ifs <;> interval_cases k <;> simp only [inBand] at h <;>
    first
      | rfl
      | (exfalso; try obtain ⟨ha, hb⟩ := h
         linarith)

/-- C1 counterexample: the claim sends the boundary value 15 to the
`[15,21)` band color `#DAA520`, but `fon` tests `temp_c <= 15` before
`temp_c < 21`, so `fon 15` is the `(10,15]` color `#DEB887`. -/
theorem fon_claim_cex_at_15 :
    fon 15 = "#DEB887" ∧ fon 15 ≠ "#DAA520" := by
  have h : fon 15 = "#DEB887" := by norm_num [fon]
  exact ⟨h, by rw [h]; decide⟩

/-- C1 (amended): `fon` is total and band-exhaustive over the nine bands
`< -20`, `[-20,-10]`, `(-10,-5]`, `(-5,0]`, `(0,10]`, `(10,15]`, `(15,21)`,
`[21,26)`, `>= 26` — bands six and seven being `(10,15]` and `(15,21)`
rather than the claimed `(10,15]` / `[15,21)` — : every rational temperature
lies in exactly one band, `fon` returns that band's palette color, and the
boundary values map as the code's inclusive/exclusive tests dictate, with
`fon 15 = "#DEB887"` (the `(10,15]` color) instead of the claimed
`#DAA520`. -/
theorem fon_total_band_exhaustive (t : ℚ) :
    (∃! k : Nat, k < 9 ∧ inBand k t)
    ∧ (∀ k : Nat, k < 9 → inBand k t → fon t = palette k)
    ∧ fon (-20) = "#4682B4" ∧ fon (-10) = "#4682B4" ∧ fon (-5) = "#B0E0E6"
    ∧ fon 0 = "#E0FFFF" ∧ fon 10 = "#FFE4B5" ∧ fon 15 = "#DEB887"
    ∧ fon 21 = "#FF8C00" ∧ fon 26 = "#B22222" := by
  refine ⟨⟨bandIdx t, ⟨bandIdx_lt t, inBand_bandIdx t⟩,
      fun k hk => inBand_unique t k hk.1 hk.2⟩,
    fun k hk h => ?_, by norm_num [fon], by norm_num [fon], by norm_num [fon],
    by norm_num [fon], by norm_num [fon], by norm_num [fon],
    by norm_num [fon], by norm_num [fon]⟩
  rw [fon_eq_palette_bandIdx, inBand_unique t k hk h]

/-- C1 witness: at the concrete temperature 22, band 7 (`[21,26)`) is the
unique matching band and `fon` returns its color `#FF8C00`. -/
theorem fon_total_band_exhaustive_witness :
    (7 < 9 ∧ inBand 7 (22 : ℚ)) ∧ fon (22 : ℚ) = palette 7 := by
  have h := fon_total_band_exhaustive (22 : ℚ)
  have h7 : inBand 7 (22 : ℚ) := by
    simp only [inBand]
    norm_num
  exact ⟨⟨by norm_num, h7⟩, h.2.1 7 (by norm_num) h7⟩

/-- C10: `fonX` — the same branch chain read through IEEE comparison
semantics — is total over all doubles: NaN fails every comparison and falls
through to the final `else`, giving `#B22222`; `+∞` likewise gives
`#B22222`; `-∞` satisfies the first test and gives `#191970`; and on every
finite value `fonX` agrees with `fon`. -/
theorem fonX_total_special_values :
    fonX .nan = "#B22222" ∧ fonX .posInf = "#B22222" ∧ fonX .negInf = "#191970"
    ∧ ∀ q : ℚ, fonX (.fin q) = fon q := by
  refine ⟨rfl, rfl, rfl, fun q => ?_⟩
  simp only [fonX, fon, XDouble.lt, XDouble.le, decide_eq_true_eq]

/-! ### Statistics lemmas (claims about `plotLineStat`) -/

theorem sqAcc_go (m : ℚ) (vs : List ℚ) (a : ℚ) :
    vs.foldl (fun sum v => sum + (v - m) * (v - m)) a
      = a + (vs.map (fun v => (v - m) * (v - m))).sum := by
  induction vs generalizing a with
  | nil => simp
  | cons x xs ih =>
    simp only [List.foldl_cons, List.map_cons, List.sum_cons, ih]
    ring

theorem sqAcc_eq_sum (m : ℚ) (vs : List ℚ) :
    sqAcc vs m = (vs.map (fun v => (v - m) * (v - m))).sum := by
  rw [sqAcc, sqAcc_go]
  ring

theorem mean_eq_meanSpec (vs : List ℚ) : mean vs = meanSpec vs := by
  rw [mean, meanSpec, List.sum_eq_foldl]

theorem mean_single (a : ℚ) : mean [a] = a := by
  norm_num [mean]

theorem mean_123 : mean [1, 2, 3] = 2 := by
  norm_num [mean]

/-- C2: `plotLineStat`'s statistics (main.cpp 166-171) compute the arithmetic
average and the population standard deviation (squared deviations summed,
divided by N — not N−1 — then square-rooted); a single-element series has
mean equal to that value and stddev 0, and `[1,2,3]` has mean 2 and stddev
`sqrt (2/3)`. -/
theorem summarize_mean_stddev (vs : List ℚ) (_hne : vs ≠ []) (a : ℚ) :
    mean vs = meanSpec vs ∧ stddev vs = stddevSpec vs
    ∧ mean [a] = a ∧ stddev [a] = 0
    ∧ mean [1, 2, 3] = 2 ∧ stddev [1, 2, 3] = Real.sqrt (2 / 3) := by
  refine ⟨mean_eq_meanSpec vs, ?_, mean_single a, ?_, mean_123, ?_⟩
  · rw [stddev, stddevSpec, sqAcc_eq_sum, mean_eq_meanSpec]
  · have h1 : sqAcc [a] (mean [a]) = 0 := by
      rw [mean_single]
      simp [sqAcc]
    rw [stddev, h1]
    norm_num
  · have h2 : sqAcc [1, 2, 3] (mean [1, 2, 3]) = 2 := by
      rw [mean_123]
      norm_num [sqAcc]
    rw [stddev, h2]
    norm_num

/-- C2 witness: the theorem applied to the series `[1,2,3]`. -/
theorem summarize_mean_stddev_witness :
    ([1, 2, 3] : List ℚ) ≠ []
    ∧ mean [1, 2, 3] = 2 ∧ stddev [1, 2, 3] = Real.sqrt (2 / 3) := by
  have h := summarize_mean_stddev [1, 2, 3] (by simp) 5
  exact ⟨by simp, h.2.2.2.2.1, h.2.2.2.2.2⟩

theorem getD_map_of_lt {α β : Type _} (f : α → β) (xs : List α) (i : Nat)
    (hi : i < xs.length) (d : β) (d2 : α) :
    (xs.map f).getD i d = f (xs.getD i d2) := by
  have h2 : i < (xs.map f).length := by simpa using hi
  rw [List.getD_eq_getElem _ _ h2, List.getD_eq_getElem _ _ hi, List.getElem_map]

theorem stddev_xys0_pos : 0 < stddev (xys0.map Prod.snd) := by
  rw [stddev, Real.sqrt_pos, Rat.cast_pos]
  norm_num [xys0, sqAcc, mean]

/-- C3: whenever `plotLineStat` emits the deviation band, the upper series
pairs each sample's own timestamp with `value + stddev` and the lower series
with `value - stddev` — the band is offset from each sample's own value, not
centered on the mean (main.cpp 188-192). -/
theorem band_offsets_per_point (xys : List (ℤ × ℚ)) (showDev : Bool)
    (u l : List (ℤ × ℝ)) (_hne : xys ≠ [])
    (hb : (plotLineStat xys showDev).band = some (u, l)) :
    u.length = xys.length ∧ l.length = xys.length
    ∧ ∀ i : Nat, i < xys.length →
        u.getD i (0, 0) = ((xys.getD i (0, 0)).1,
          ((xys.getD i (0, 0)).2 : ℝ) + stddev (xys.map Prod.snd))
        ∧ l.getD i (0, 0) = ((xys.getD i (0, 0)).1,
          ((xys.getD i (0, 0)).2 : ℝ) - stddev (xys.map Prod.snd)) := by
  simp only [plotLineStat] at hb
  by_cases hc : showDev ∧ 0 < stddev (xys.map Prod.snd)
  · rw [if_pos hc, Option.some_inj] at hb
    injection hb with hu hl
    subst hu
    subst hl
    refine ⟨by simp, by simp, fun i hi => ?_⟩
    constructor
    · rw [getD_map_of_lt _ xys i hi _ (0, 0)]
    · rw [getD_map_of_lt _ xys i hi _ (0, 0)]
  · rw [if_neg hc] at hb
    exact absurd hb (by simp)

theorem plotLineStat_xys0_band :
    (plotLineStat xys0 true).band = some (u0, l0) := by
  simp only [plotLineStat, u0, l0]
  rw [if_pos ⟨by trivial, stddev_xys0_pos⟩]

/-- C3 witness: the theorem applied to the two-point series `xys0` and the
band `plotLineStat` actually emits for it, evaluated at index 0. -/
theorem band_offsets_per_point_witness :
    (xys0 ≠ [] ∧ (plotLineStat xys0 true).band = some (u0, l0))
    ∧ u0.getD 0 (0, 0) = ((xys0.getD 0 (0, 0)).1,
        ((xys0.getD 0 (0, 0)).2 : ℝ) + stddev (xys0.map Prod.snd))
    ∧ l0.getD 0 (0, 0) = ((xys0.getD 0 (0, 0)).1,
        ((xys0.getD 0 (0, 0)).2 : ℝ) - stddev (xys0.map Prod.snd)) := by
  have h := band_offsets_per_point xys0 true u0 l0 (by simp [xys0])
    plotLineStat_xys0_band
  have h0 := h.2.2 0 (by simp [xys0])
  exact ⟨⟨by simp [xys0], plotLineStat_xys0_band⟩, h0.1, h0.2⟩

/-- C9: for a non-empty series, the ±σ band series are produced exactly when
deviation display is requested and the standard deviation is positive
(main.cpp line 181); with stddev 0 no band is emitted, and the function
still returns its other series (no failure). -/
theorem band_emitted_iff (xys : List (ℤ × ℚ)) (showDev : Bool)
    (_hne : xys ≠ []) :
    ((plotLineStat xys showDev).band ≠ none
        ↔ showDev ∧ 0 < stddev (xys.map Prod.snd))
    ∧ (stddev (xys.map Prod.snd) = 0 → (plotLineStat xys showDev).band = none)
    ∧ (showDev ∧ 0 < stddev (xys.map Prod.snd) →
        (plotLineStat xys showDev).band
          = some (xys.map (fun p => (p.1, (p.2 : ℝ) + stddev (xys.map Prod.snd))),
                  xys.map (fun p => (p.1, (p.2 : ℝ) - stddev (xys.map Prod.snd))))) := by
  simp only [plotLineStat]
  by_cases hc : showDev ∧ 0 < stddev (xys.map Prod.snd)
  · rw [if_pos hc]
    refine ⟨by simp [hc], fun h0 => absurd (h0 ▸ hc.2) (lt_irrefl 0), fun _ => rfl⟩
  · rw [if_neg hc]
    exact ⟨by simp [hc], fun _ => rfl, fun h => absurd h hc⟩

/-- C9 witness: on `xys0` with deviation requested, the band is emitted and
the stddev is positive. -/
theorem band_emitted_iff_witness :
    xys0 ≠ []
    ∧ ((plotLineStat xys0 true).band ≠ none
        ↔ (true = true ∧ 0 < stddev (xys0.map Prod.snd))) := by
  exact ⟨by simp [xys0], (band_emitted_iff xys0 true (by simp [xys0])).1⟩

/-! ### Extractor lemmas -/

theorem strideGo_props (n I : Nat) (hI : 0 < I) :
    ∀ fuel i, n - i ≤ fuel →
      (strideGo n I fuel i).Pairwise (· < ·)
      ∧ (∀ j ∈ strideGo n I fuel i, i ≤ j ∧ j < n)
      ∧ (strideGo n I fuel i).length ≤ n - i
      ∧ (strideGo n I fuel i).length = (n - i + I - 1) / I := by
  intro fuel
  induction fuel with
  | zero =>
    intro i hk
    refine ⟨List.Pairwise.nil, by simp [strideGo], by simp [strideGo], ?_⟩
    have h0 : n - i = 0 := by omega
    simp [strideGo, h0, Nat.div_eq_of_lt (by omega : I - 1 < I)]
  | succ fuel ih =>
    intro i hk
    by_cases hin : i < n
    · have hrec := ih (i + I) (by omega)
      simp only [strideGo, if_pos hin]
      refine ⟨List.Pairwise.cons (fun j hj => by have := hrec.2.1 j hj; omega) hrec.1,
        ?_, ?_, ?_⟩
      · intro j hj
        rcases List.mem_cons.mp hj with rfl | hj2
        · omega
        · have := hrec.2.1 j hj2
          omega
      · have := hrec.2.2.1
        simp only [List.length_cons]
        omega
      · simp only [List.length_cons, hrec.2.2.2]
        by_cases hband : n ≤ i + I
        · have hz : n - (i + I) = 0 := by omega
          rw [hz, Nat.div_eq_of_lt (by omega : 0 + I - 1 < I)]
          have h1 : 1 * I ≤ n - i + I - 1 := by omega
          have h2 : n - i + I - 1 < (1 + 1) * I := by omega
          rw [Nat.div_eq_of_lt_le h1 h2]
        · have heq : n - i + I - 1 = (n - (i + I) + I - 1) + I := by omega
          rw [heq, Nat.add_div_right _ hI]
    · simp only [strideGo, if_neg hin]
      refine ⟨List.Pairwise.nil, by simp, by simp, ?_⟩
      have h0 : n - i = 0 := by omega
      simp [h0, Nat.div_eq_of_lt (by omega : I - 1 < I)]

theorem strideLoop_sorted (n I i : Nat) (hI : 0 < I) :
    (strideLoop n I i).Pairwise (· < ·) :=
  (strideGo_props n I hI (n - i) i le_rfl).1

theorem strideLoop_mem (n I i : Nat) (hI : 0 < I) :
    ∀ j ∈ strideLoop n I i, i ≤ j ∧ j < n :=
  (strideGo_props n I hI (n - i) i le_rfl).2.1

theorem strideLoop_length_le (n I i : Nat) (hI : 0 < I) :
    (strideLoop n I i).length ≤ n - i :=
  (strideGo_props n I hI (n - i) i le_rfl).2.2.1

theorem strideLoop_length (n I : Nat) (hI : 0 < I) :
    (strideLoop n I 0).length = (n + I - 1) / I := by
  have h := (strideGo_props n I hI (n - 0) 0 le_rfl).2.2.2
  simpa using h

theorem parseFreq_pos (freq : String) : 0 < parseFreq freq := by
  unfold parseFreq
  split_ifs <;> norm_num

theorem foldl_append_eq_bind {α β : Type _} (f : α → List β) (days : List α)
    (acc : List β) :
    days.foldl (fun result d => result ++ f d) acc = acc ++ days.flatMap f := by
  induction days generalizing acc with
  | nil => simp
  | cons d rest ih => simp [ih, List.append_assoc]

theorem parse_eq_bind (doc : Json) (freq : String) :
    parseVisualCrossingJson doc freq
      = ((objLookup doc.toObject "days").toArray).flatMap (extractDay (parseFreq freq)) := by
  simp only [parseVisualCrossingJson]
  rw [foldl_append_eq_bind]
  simp

theorem extractIndexed_proj (interval d : Nat) (days : List Json) :
    (extractIndexed interval d days).map (fun t => t.2.2)
      = days.flatMap (extractDay interval) := by
  induction days generalizing d with
  | nil => rfl
  | cons dayV rest ih =>
    simp only [extractIndexed, List.map_append, ih, List.flatMap_cons]
    congr 1
    by_cases hc : objContains dayV.toObject "hours"
    · simp [extractDay, hc, List.map_map, Function.comp]
    · simp [extractDay, hc]

theorem extractIndexed_day_lb (interval d : Nat) (days : List Json) :
    ∀ t ∈ extractIndexed interval d days, d ≤ t.1 := by
  induction days generalizing d with
  | nil => simp [extractIndexed]
  | cons dayV rest ih =>
    intro t ht
    simp only [extractIndexed] at ht
    rcases List.mem_append.mp ht with h1 | h2
    · split_ifs at h1 with hc
      · obtain ⟨i, _hi, rfl⟩ := List.mem_map.mp h1
        exact le_refl d
      · simp at h1
    · have := ih (d + 1) t h2
      omega

theorem extractIndexed_pairwise (interval : Nat) (hI : 0 < interval)
    (d : Nat) (days : List Json) :
    (extractIndexed interval d days).Pairwise
      (fun a b => a.1 ≤ b.1 ∧ (a.1 = b.1 → a.2.1 < b.2.1)) := by
  induction days generalizing d with
  | nil => exact List.Pairwise.nil
  | cons dayV rest ih =>
    simp only [extractIndexed]
    apply List.pairwise_append.mpr
    refine ⟨?_, ih (d + 1), ?_⟩
    · split_ifs with hc
      · rw [List.pairwise_map]
        exact (strideLoop_sorted _ _ 0 hI).imp
          (fun h => ⟨le_refl d, fun _ => h⟩)
      · exact List.Pairwise.nil
    · intro a ha b hb
      have hb1 := extractIndexed_day_lb interval (d + 1) rest b hb
      have ha1 : a.1 = d := by
        split_ifs at ha with hc
        · obtain ⟨i, _hi, rfl⟩ := List.mem_map.mp ha
          rfl
        · simp at ha
      exact ⟨by omega, fun he => absurd he (by omega)⟩

theorem extractDay_length_le (I : Nat) (hI : 0 < I) (dayV : Json) :
    (extractDay I dayV).length
      ≤ ((objLookup dayV.toObject "hours").toArray).length := by
  simp only [extractDay]
  split_ifs with hc
  · simp only [List.length_map]
    have := strideLoop_length_le ((objLookup dayV.toObject "hours").toArray).length I 0 hI
    omega
  · simp

theorem parse_length_le_totalHours (doc : Json) (freq : String) :
    (parseVisualCrossingJson doc freq).length ≤ totalHours doc := by
  rw [parse_eq_bind, totalHours, List.length_flatMap]
  apply List.sum_le_sum
  intro dayV _hmem
  exact extractDay_length_le (parseFreq freq) (parseFreq_pos freq) dayV

theorem parseFreq_unrecognized (freq : String)
    (h : freq ∉ (["1h", "3h", "6h", "12h", "1d"] : List String)) :
    parseFreq freq = 1 := by
  simp only [List.mem_cons, List.not_mem_nil, or_false, not_or] at h
  obtain ⟨h1, h2, h3, h4, h5⟩ := h
  simp [parseFreq, h1, h2, h3, h4, h5]

/-- C4: the recognized interval strings "1h", "3h", "6h", "12h", "1d" give
strides 1, 3, 6, 12, 24; each day with an hourly breakdown contributes
`ceil(hourly_count / interval)` samples (as `(n + I - 1) / I`); and any
unrecognized string behaves exactly like interval 1, never failing. -/
theorem extract_interval_lengths (doc : Json) (freq : String) (dayV : Json) :
    parseFreq "1h" = 1 ∧ parseFreq "3h" = 3 ∧ parseFreq "6h" = 6
    ∧ parseFreq "12h" = 12 ∧ parseFreq "1d" = 24
    ∧ (objContains dayV.toObject "hours" = true →
        (extractDay (parseFreq freq) dayV).length
          = (((objLookup dayV.toObject "hours").toArray).length + parseFreq freq - 1)
            / parseFreq freq)
    ∧ (freq ∉ (["1h", "3h", "6h", "12h", "1d"] : List String) →
        parseVisualCrossingJson doc freq = parseVisualCrossingJson doc "1h") := by
  refine ⟨rfl, rfl, rfl, rfl, rfl, fun hc => ?_, fun hfreq => ?_⟩
  · simp only [extractDay, hc, if_true, List.length_map]
    exact strideLoop_length _ _ (parseFreq_pos freq)
  · rw [parse_eq_bind, parse_eq_bind, parseFreq_unrecognized freq hfreq]
    simp [parseFreq]

/-- C4 witness: the theorem applied to the round-trip document, the
unrecognized interval string "7h", and the two-hour day. -/
theorem extract_interval_lengths_witness :
    (objContains day1.toObject "hours" = true
      ∧ (extractDay (parseFreq "7h") day1).length
          = (((objLookup day1.toObject "hours").toArray).length + parseFreq "7h" - 1)
            / parseFreq "7h")
    ∧ ("7h" ∉ (["1h", "3h", "6h", "12h", "1d"] : List String)
      ∧ parseVisualCrossingJson doc1 "7h" = parseVisualCrossingJson doc1 "1h") := by
  have h := extract_interval_lengths doc1 "7h" day1
  exact ⟨⟨rfl, h.2.2.2.2.2.1 rfl⟩, ⟨by decide, h.2.2.2.2.2.2 (by decide)⟩⟩

/-- C5: extraction preserves temporal order and never duplicates: the output
is the projection of the provenance-tagged extraction, whose (day, hour)
source indices are lexicographically increasing — day indices weakly, hour
indices strictly within a day — and the output length is bounded by the
total number of hourly entries. -/
theorem extract_order_preserved (doc : Json) (freq : String) :
    parseVisualCrossingJson doc freq
        = (extractIndexed (parseFreq freq) 0 ((objLookup doc.toObject "days").toArray)).map
            (fun t => t.2.2)
    ∧ (∀ i j : Nat, i < j →
        j < (extractIndexed (parseFreq freq) 0
              ((objLookup doc.toObject "days").toArray)).length →
        ((extractIndexed (parseFreq freq) 0
            ((objLookup doc.toObject "days").toArray)).getD i noPoint).1
          ≤ ((extractIndexed (parseFreq freq) 0
              ((objLookup doc.toObject "days").toArray)).getD j noPoint).1
        ∧ (((extractIndexed (parseFreq freq) 0
              ((objLookup doc.toObject "days").toArray)).getD i noPoint).1
            = ((extractIndexed (parseFreq freq) 0
                ((objLookup doc.toObject "days").toArray)).getD j noPoint).1 →
            ((extractIndexed (parseFreq freq) 0
                ((objLookup doc.toObject "days").toArray)).getD i noPoint).2.1
              < ((extractIndexed (parseFreq freq) 0
                  ((objLookup doc.toObject "days").toArray)).getD j noPoint).2.1))
    ∧ (parseVisualCrossingJson doc freq).length ≤ totalHours doc := by
  refine ⟨?_, ?_, parse_length_le_totalHours doc freq⟩
  · rw [parse_eq_bind, ← extractIndexed_proj]
  · intro i j hij hj
    have hp := extractIndexed_pairwise (parseFreq freq) (parseFreq_pos freq) 0
      ((objLookup doc.toObject "days").toArray)
    rw [List.pairwise_iff_get] at hp
    have hi : i < (extractIndexed (parseFreq freq) 0
        ((objLookup doc.toObject "days").toArray)).length := lt_trans hij hj
    have h := hp ⟨i, hi⟩ ⟨j, hj⟩ (Fin.mk_lt_mk.mpr hij)
    rw [List.getD_eq_getElem _ _ hi, List.getD_eq_getElem _ _ hj]
    simpa [List.get_eq_getElem] using h

/-- C5 witness: the theorem applied to a two-day document, with the order
property evaluated at output positions 0 < 1. -/
theorem extract_order_preserved_witness :
    (0 < 1 ∧ 1 < (extractIndexed (parseFreq "1h") 0
        ((objLookup doc2.toObject "days").toArray)).length)
    ∧ ((extractIndexed (parseFreq "1h") 0
          ((objLookup doc2.toObject "days").toArray)).getD 0 noPoint).1
        ≤ ((extractIndexed (parseFreq "1h") 0
            ((objLookup doc2.toObject "days").toArray)).getD 1 noPoint).1
    ∧ (parseVisualCrossingJson doc2 "1h").length ≤ totalHours doc2 := by
  have h := extract_order_preserved doc2 "1h"
  have hlen : 1 < (extractIndexed (parseFreq "1h") 0
      ((objLookup doc2.toObject "days").toArray)).length := by decide
  exact ⟨⟨Nat.zero_lt_one, hlen⟩, (h.2.1 0 1 Nat.zero_lt_one hlen).1, h.2.2⟩

/-- C6: a malformed or non-object top-level document — or an object whose
"days" entry is not a usable array — extracts to the empty sequence; in the
embedding every input yields a value, so no error is possible. -/
theorem parse_malformed_empty (doc : Json) (freq : String) :
    (doc.isObj = false → parseVisualCrossingJson doc freq = [])
    ∧ ((objLookup doc.toObject "days").isArr = false →
        parseVisualCrossingJson doc freq = []) := by
  constructor
  · intro h
    rw [parse_eq_bind]
    cases doc <;> first | rfl | simp [Json.isObj] at h
  · intro h
    rw [parse_eq_bind]
    rcases hv : objLookup doc.toObject "days" with _ | _ | b | q | s | a | o <;>
      first | rfl | (rw [hv] at h; simp [Json.isArr] at h)

/-- C6 witness: the theorem applied to an array-topped document. -/
theorem parse_malformed_empty_witness :
    (Json.arr []).isObj = false
    ∧ parseVisualCrossingJson (Json.arr []) "1h" = [] :=
  ⟨rfl, (parse_malformed_empty (Json.arr []) "1h").1 rfl⟩

/-- C7: a day entry without a "hours" key contributes zero samples — removing
it from the days array leaves the extraction output unchanged — and
extraction continues with the remaining days; no error is raised. -/
theorem day_without_hours_skipped (freq : String) (pre post : List Json)
    (dayV : Json) (hc : objContains dayV.toObject "hours" = false) :
    extractDay (parseFreq freq) dayV = []
    ∧ parseVisualCrossingJson (.obj [("days", .arr (pre ++ dayV :: post))]) freq
        = parseVisualCrossingJson (.obj [("days", .arr (pre ++ post))]) freq := by
  have he : extractDay (parseFreq freq) dayV = [] := by
    simp [extractDay, hc]
  refine ⟨he, ?_⟩
  rw [parse_eq_bind, parse_eq_bind]
  simp only [Json.toObject, objLookup, if_pos rfl, Json.toArray]
  simp [List.flatMap_append, he]

/-- C7 witness: the theorem applied to the day without an hourly breakdown,
appended after the two-hour day. -/
theorem day_without_hours_skipped_witness :
    objContains dayNoHours.toObject "hours" = false
    ∧ parseVisualCrossingJson (.obj [("days", .arr ([day1] ++ dayNoHours :: []))]) "1h"
        = parseVisualCrossingJson (.obj [("days", .arr ([day1] ++ []))]) "1h" :=
  ⟨rfl, (day_without_hours_skipped "1h" [day1] [] dayNoHours rfl).2⟩

theorem toDouble_of_not_num (v : Json) (h : v.isNum = false) : v.toDouble = 0 := by
  cases v <;> simp_all [Json.isNum, Json.toDouble]

/-- C8: every stride-selected hourly entry yields exactly one sample — the
day's output is precisely the map of `mkPoint` over the selected indices —
with each of the four numeric fields defaulting to 0 when absent or
non-numeric, and the timestamp equal to `parseDateTime` of the combined
date+time string, which is the invalid sentinel `none` whenever that string
does not match the fixed `yyyy-MM-dd HH:mm:ss` layout; the sample is
appended regardless. -/
theorem sample_defaults_and_sentinel (date : String) (hourV dayV : Json) (I : Nat) :
    ((objLookup hourV.toObject "temp").isNum = false →
        (mkPoint date hourV).temperature = 0)
    ∧ ((objLookup hourV.toObject "pressure").isNum = false →
        (mkPoint date hourV).pressure = 0)
    ∧ ((objLookup hourV.toObject "humidity").isNum = false →
        (mkPoint date hourV).humidity = 0)
    ∧ ((objLookup hourV.toObject "windspeed").isNum = false →
        (mkPoint date hourV).windspeed = 0)
    ∧ (mkPoint date hourV).datetime
        = parseDateTime (date ++ " " ++ (objLookup hourV.toObject "datetime").toString)
    ∧ (objContains dayV.toObject "hours" = true →
        extractDay I dayV
          = (strideLoop ((objLookup dayV.toObject "hours").toArray).length I 0).map
              (fun i => mkPoint ((objLookup dayV.toObject "datetime").toString)
                (((objLookup dayV.toObject "hours").toArray).getD i .undef))) := by
  refine ⟨fun h => toDouble_of_not_num _ h, fun h => toDouble_of_not_num _ h,
    fun h => toDouble_of_not_num _ h, fun h => toDouble_of_not_num _ h, rfl,
    fun hc => ?_⟩
  simp [extractDay, hc]

/-- C8 witness: the theorem applied to the malformed hourly entry: the temp
field is a string so the sample's temperature defaults to 0, the combined
string "2023-01-03 oops" fails the fixed layout so the timestamp is the
sentinel `none`, and the sample is still the day's single output. -/
theorem sample_defaults_and_sentinel_witness :
    ((objLookup hourBad.toObject "temp").isNum = false
      ∧ (mkPoint "2023-01-03" hourBad).temperature = 0)
    ∧ (mkPoint "2023-01-03" hourBad).datetime
        = parseDateTime ("2023-01-03" ++ " " ++ (objLookup hourBad.toObject "datetime").toString)
    ∧ parseDateTime ("2023-01-03" ++ " " ++ (objLookup hourBad.toObject "datetime").toString)
        = none
    ∧ (objContains dayBad.toObject "hours" = true
      ∧ extractDay 1 dayBad
          = (strideLoop ((objLookup dayBad.toObject "hours").toArray).length 1 0).map
              (fun i => mkPoint ((objLookup dayBad.toObject "datetime").toString)
                (((objLookup dayBad.toObject "hours").toArray).getD i .undef))) := by
  have h := sample_defaults_and_sentinel "2023-01-03" hourBad dayBad 1
  exact ⟨⟨rfl, h.1 rfl⟩, h.2.2.2.2.1, by decide, ⟨rfl, h.2.2.2.2.2 rfl⟩⟩

end WeatherApp
